/-
Verification of the patient-level data splitting algorithm
(src/src/data_splitting_algorithm.py) against its specification.

The Python code is shallowly embedded: pure functions become Lean functions,
the mutable `self.*` state is passed explicitly, file reads are modelled as
`Option String` inputs (none = the read raised), and Python exceptions become
`Except SplitError`.  Python float ratios are modelled as rationals; `int(x)`
is truncation toward zero and list slicing follows Python's negative-index
clamping semantics, both modelled exactly below.
-/
import Mathlib

set_option maxRecDepth 10000

/-! ### Python semantics helpers -/

/-- Python `int(q)` on a numeric value: truncation toward zero. -/
def pyInt (q : ℚ) : ℤ := if q < 0 then ⌈q⌉ else ⌊q⌋

/-- Effective index of a Python slice endpoint `i` on a list of length `len`:
negative indices count from the end and are clamped at 0, nonnegative ones are
clamped at `len`. -/
def pyIndex (len : ℕ) (i : ℤ) : ℕ :=
  if i < 0 then ((len : ℤ) + i).toNat else min len i.toNat

/-- Python `l[a:]`. -/
def pySliceFrom (l : List α) (a : ℤ) : List α := l.drop (pyIndex l.length a)

/-- Python `l[:b]`. -/
def pySliceTo (l : List α) (b : ℤ) : List α := l.take (pyIndex l.length b)

/-- Python `l[a:b]`. -/
def pySlice (l : List α) (a b : ℤ) : List α :=
  (l.take (pyIndex l.length b)).drop (pyIndex l.length a)

/-- Python `s.startswith(pre)`: `pre` is a prefix of `s` (modelled on the
character lists of the two strings). -/
def pyStartswith (s pre : String) : Bool := pre.data.isPrefixOf s.data

/-- Python `s.lower()`: per-character lowercasing (ASCII case mapping, which
covers every keyword in the fixed taxonomy). -/
def pyLower (s : String) : String := String.mk (s.data.map Char.toLower)

/-- Python `needle in hay` on strings: contiguous-substring containment. -/
def pyInStr (needle hay : String) : Prop := needle.data <:+: hay.data

instance (needle hay : String) : Decidable (pyInStr needle hay) :=
  List.decidableInfix needle.data hay.data

deriving instance DecidableEq for Except

/-! ### Error taxonomy (the spec's names for the exceptions the code raises:
`InvalidRatioError` is the `assert` on the ratio sum, `UnknownSourceError`
the `ValueError` in `extract_patient_id`). -/

inductive SplitError where
  | invalidRatio : SplitError
  | unknownSource (source : String) : SplitError
deriving Repr, DecidableEq

/-! ### Data model -/

/-- One row of the master index.  `patient_id` and `split` are the two derived
fields the splitter attaches during processing (absent = `none`, matching a
row dict that does not yet carry the key). -/
structure ImageRecord where
  filename : String
  source : String
  image_path : String
  caption_path : String
  has_caption : Bool
  patient_id : Option String := none
  split : Option String := none
deriving Repr, DecidableEq

/-! ### extract_patient_id (lines 66-95)

`re.search(r'patient(\d+)', filename)`: leftmost occurrence of the literal
followed by at least one digit, capturing the maximal digit run there. -/

/-- Leftmost match of `lit` immediately followed by one or more digits;
returns the maximal digit run of that match. -/
def searchLitDigits (lit : List Char) : List Char → Option (List Char)
  | [] => none
  | c :: cs =>
    if lit.isPrefixOf (c :: cs) then
      let ds := ((c :: cs).drop lit.length).takeWhile Char.isDigit
      if ds.isEmpty then searchLitDigits lit cs else some ds
    else searchLitDigits lit cs

/-- `extract_patient_id`.  `pyHash` models Python's built-in `hash` on
strings, which is salted per process (PYTHONHASHSEED); it is therefore a
parameter of the embedding, one value per run. -/
def extract_patient_id (pyHash : String → Int) (filename source : String) :
    Except SplitError String :=
  if source = "CheXpert" then
    match searchLitDigits "patient".data filename.data with
    | some ds => .ok ("chexpert_patient" ++ String.mk ds)
    | none => .ok ("chexpert_unknown_" ++ toString (pyHash filename))
  else if source = "Radiopaedia" then
    match searchLitDigits "radiopaedia_".data filename.data with
    | some ds => .ok ("radiopaedia_" ++ String.mk ds)
    | none => .ok ("radiopaedia_unknown_" ++ toString (pyHash filename))
  else .error (.unknownSource source)

/-! ### group_by_patient (lines 97-120)

`self.patient_data` is a `defaultdict(list)`: association list in first-seen
key order, each key's records in input order. -/

def insertGroup (acc : List (String × List ImageRecord)) (pid : String)
    (r : ImageRecord) : List (String × List ImageRecord) :=
  if acc.any (fun p => p.1 == pid) then
    acc.map (fun p => if p.1 == pid then (p.1, p.2 ++ [r]) else p)
  else acc ++ [(pid, [r])]

def group_by_patient (pyHash : String → Int) (rows : List ImageRecord) :
    Except SplitError (List (String × List ImageRecord)) :=
  rows.foldlM
    (fun acc row => do
      let pid ← extract_patient_id pyHash row.filename row.source
      pure (insertGroup acc pid { row with patient_id := some pid }))
    []

/-! ### extract_diseases_from_caption (lines 122-162) -/

def disease_keywords : List (String × List String) :=
  [("pneumonia", ["pneumonia", "consolidation", "infiltrate"]),
   ("pleural_effusion", ["pleural effusion", "effusion"]),
   ("cardiomegaly", ["cardiomegaly", "enlarged heart", "cardiac enlargement"]),
   ("edema", ["edema", "pulmonary edema"]),
   ("atelectasis", ["atelectasis", "collapse"]),
   ("pneumothorax", ["pneumothorax"]),
   ("nodule", ["nodule", "mass", "lesion"]),
   ("fracture", ["fracture", "rib fracture"]),
   ("normal", ["no acute", "normal", "clear lungs", "unremarkable"])]

/-- `extract_diseases_from_caption`.  The argument models the result of
`open(...).read()`: `none` means the read raised, which the code catches,
returning the sentinel.  The inner loop (append on first matching keyword,
then `break`) is exactly a filter on the taxonomy followed by projection. -/
def extract_diseases_from_caption (readResult : Option String) : List String :=
  match readResult with
  | none => ["unspecified"]
  | some captionText =>
    let lower := pyLower captionText
    let diseases := (disease_keywords.filter
      (fun p => p.2.any (fun k => decide (pyInStr k lower)))).map Prod.fst
    if diseases.isEmpty then ["unspecified"] else diseases

/-! ### extract_patient_disease_labels (lines 164-184)

`list(set(all_diseases))` is modelled as `dedup` (the Python set's iteration
order is hash-dependent, but no downstream consumer is order-sensitive:
`get_stratification_key` only tests membership for labels that are always
drawn from the taxonomy). -/

def extract_patient_disease_labels (readCaption : String → Option String)
    (patient_data : List (String × List ImageRecord)) :
    List (String × List String) :=
  patient_data.map (fun p =>
    (p.1, (p.2.flatMap
      (fun img => extract_diseases_from_caption (readCaption img.caption_path))).dedup))

/-! ### get_stratification_key (lines 186-209) -/

def priority_diseases : List String :=
  ["pneumonia", "pneumothorax", "pleural_effusion",
   "cardiomegaly", "edema", "atelectasis",
   "nodule", "fracture", "normal", "unspecified"]

/-- `get_stratification_key` on the patient's disease list (the caller passes
`self.disease_labels.get(patient_id, ["unspecified"])`).  The loop returns the
first priority tag contained in `diseases`; the final line is
`diseases[0] if diseases else "unspecified"`. -/
def get_stratification_key (diseases : List String) : String :=
  match priority_diseases.find? (fun d => diseases.contains d) with
  | some d => d
  | none => diseases.headD "unspecified"

/-! ### stratified_split_patients (lines 211-267)

The `defaultdict` grouping of patients by stratification key (lines 233-238):
keys in first-occurrence order, each group's members in input order.  The
recursion below produces exactly that association list. -/

def groupByKeyAux (key : String → String) : ℕ → List String → List (String × List String)
  | _, [] => []
  | 0, _ :: _ => []
  | n + 1, x :: xs =>
    (key x, x :: xs.filter (fun y => key y == key x)) ::
      groupByKeyAux key n (xs.filter (fun y => key y != key x))

/-- Group a list by key, keys in first-occurrence order and each group's
members in input order — the contents of the `defaultdict(list)` built by the
loop.  (The fuel argument, always at least the list length, only makes the
recursion structural; the `0, _ :: _` case is never reached.) -/
def groupByKey (key : String → String) (l : List String) :
    List (String × List String) :=
  groupByKeyAux key l.length l

/-- The per-group body of the loop at lines 245-258: shuffle, compute
`n_train = int(n_total * train_ratio)` and `n_val = int(n_total * val_ratio)`,
and slice `patients[:n_train]`, `patients[n_train:n_train+n_val]`,
`patients[n_train+n_val:]`. -/
def splitGroup (shuffle : List String → List String) (train_ratio val_ratio : ℚ)
    (patients : List String) : List String × List String × List String :=
  let n_total := patients.length
  let shuffled := shuffle patients
  let n_train := pyInt ((n_total : ℚ) * train_ratio)
  let n_val := pyInt ((n_total : ℚ) * val_ratio)
  (pySliceTo shuffled n_train,
   pySlice shuffled n_train (n_train + n_val),
   pySliceFrom shuffled (n_train + n_val))

structure Splits3 where
  train : List String
  val : List String
  test : List String
deriving Repr, DecidableEq

/-- `stratified_split_patients`.  The `assert` on line 230 is the entry check
(`InvalidRatioError` in the spec's taxonomy).  `np.random.shuffle` is modelled
by the `shuffle` parameter (any seeded permutation); the loop extending
`train_patients`/`val_patients`/`test_patients` group by group is the
concatenation over the group list. -/
def stratified_split_patients (shuffle : List String → List String)
    (stratKey : String → String) (patient_ids : List String)
    (train_ratio val_ratio test_ratio : ℚ) : Except SplitError Splits3 :=
  if |train_ratio + val_ratio + test_ratio - 1| < 1/1000 then
    let groups := groupByKey stratKey patient_ids
    .ok
      { train := groups.flatMap (fun g => (splitGroup shuffle train_ratio val_ratio g.2).1),
        val := groups.flatMap (fun g => (splitGroup shuffle train_ratio val_ratio g.2).2.1),
        test := groups.flatMap (fun g => (splitGroup shuffle train_ratio val_ratio g.2).2.2) }
  else .error .invalidRatio

/-! ### create_splits (lines 269-328) -/

/-- The per-source partition and per-source allocation of `create_splits`
(lines 289-302), on the keys of `self.patient_data`. -/
def create_splits (shuffle : List String → List String)
    (stratKey : String → String) (patient_keys : List String)
    (train_ratio val_ratio test_ratio : ℚ) : Except SplitError Splits3 := do
  let chexpert_patients := patient_keys.filter (fun pid => pyStartswith pid "chexpert_")
  let radiopaedia_patients := patient_keys.filter (fun pid => pyStartswith pid "radiopaedia_")
  let chexpert_splits ← stratified_split_patients shuffle stratKey chexpert_patients
    train_ratio val_ratio test_ratio
  let radiopaedia_splits ← stratified_split_patients shuffle stratKey radiopaedia_patients
    train_ratio val_ratio test_ratio
  pure
    { train := chexpert_splits.train ++ radiopaedia_splits.train,
      val := chexpert_splits.val ++ radiopaedia_splits.val,
      test := chexpert_splits.test ++ radiopaedia_splits.test }

/-! ### patients_to_dataframe (lines 305-311)

The loop body is `image['split'] = split_name; records.append(image)`: it
mutates each stored record in place and appends that same record.  The
embedding passes `self.patient_data` explicitly and returns both the produced
record list and the post-call state; `self.patient_data[patient_id]` on the
`defaultdict` is the lookup with `[]` default. -/

def stampSplit (split_name : String) (r : ImageRecord) : ImageRecord :=
  { r with split := some split_name }

/-- Erase the derived `split` field (used to state which parts of the state
the expansion leaves untouched). -/
def clearSplit (r : ImageRecord) : ImageRecord := { r with split := none }

def patients_to_dataframe (patient_data : List (String × List ImageRecord))
    (patient_list : List String) (split_name : String) :
    List ImageRecord × List (String × List ImageRecord) :=
  (patient_list.flatMap
     (fun pid => ((patient_data.lookup pid).getD []).map (stampSplit split_name)),
   patient_data.map
     (fun p => if patient_list.contains p.1 then (p.1, p.2.map (stampSplit split_name)) else p))

/-! ### validate_splits (lines 330-398) -/

structure SplitsData where
  train : List ImageRecord
  val : List ImageRecord
  test : List ImageRecord
  train_patients : List String
  val_patients : List String
  test_patients : List String
deriving Repr, DecidableEq

structure ValidationResults where
  no_patient_overlap : Bool
  ratio_validation : Bool
  train_has_both_sources : Bool
  val_has_both_sources : Bool
  test_has_both_sources : Bool
  all_patients_assigned : Bool
  overall_valid : Bool
deriving Repr, DecidableEq

/-- `validate_splits`.  Python `set(...)` becomes `List.toFinset`; the ratio
check compares against the hard-coded literals `0.80`, `0.10`, `0.10` of
lines 369-371; `split_df['source'].unique()` is `dedup` of the source column;
`patient_keys` is `self.patient_data.keys()`.  (With zero patients the Python
code would raise `ZeroDivisionError`; rational division by zero gives the
junk value 0 instead, so theorems about the ratio check assume a nonempty
split.) -/
def validate_splits (patient_keys : List String) (s : SplitsData) : ValidationResults :=
  let train_set := s.train_patients.toFinset
  let val_set := s.val_patients.toFinset
  let test_set := s.test_patients.toFinset
  let no_patient_overlap :=
    (train_set ∩ val_set).card == 0 && (train_set ∩ test_set).card == 0 &&
      (val_set ∩ test_set).card == 0
  let total_patients : ℚ := ((train_set.card + val_set.card + test_set.card : ℕ) : ℚ)
  let train_ratio := (train_set.card : ℚ) / total_patients
  let val_ratio := (val_set.card : ℚ) / total_patients
  let test_ratio := (test_set.card : ℚ) / total_patients
  let ratio_validation :=
    decide (|train_ratio - 80/100| < 5/100) && decide (|val_ratio - 10/100| < 5/100) &&
      decide (|test_ratio - 10/100| < 5/100)
  let hasBoth := fun (df : List ImageRecord) => (df.map (fun r => r.source)).dedup.length == 2
  let all_patients_assigned :=
    decide (patient_keys.toFinset = (train_set ∪ val_set) ∪ test_set)
  let overall_valid :=
    no_patient_overlap && ratio_validation && hasBoth s.train && hasBoth s.val &&
      hasBoth s.test && all_patients_assigned
  { no_patient_overlap := no_patient_overlap,
    ratio_validation := ratio_validation,
    train_has_both_sources := hasBoth s.train,
    val_has_both_sources := hasBoth s.val,
    test_has_both_sources := hasBoth s.test,
    all_patients_assigned := all_patients_assigned,
    overall_valid := overall_valid }

/-- The Validator as a state transformer over the split it examines: the
translated body of `validate_splits` only reads `self.splits` and
`self.patient_data`, so the resulting state is the input state. -/
def validate_splits_run (patient_keys : List String) (s : SplitsData) :
    ValidationResults × SplitsData :=
  (validate_splits patient_keys s, s)

/-! ### run_full_pipeline (lines 468-507) and save_splits (lines 412-466)

The orchestration: group -> labels -> create_splits -> expansion (threading the
in-place `split` stamping through the state) -> validate -> artifacts.
`run_full_pipeline` takes no ratio arguments: line 492 is
`splits = self.create_splits()`, so `create_splits` always runs with its
defaults `0.8/0.1/0.1` (and `main()` parses `--train-ratio`/`--val-ratio`/
`--test-ratio` but never passes them on — lines 531-532 call
`run_full_pipeline(args.output_dir)` only).  The `patient_mapping` artifact of
`save_splits` (lines 457-464) is the flat patient -> split association in
train, val, test insertion order.  A raised `SplitError` aborts before
`save_splits`, so an error result carries no artifacts (no files written). -/

structure Artifacts where
  train_index : List ImageRecord
  val_index : List ImageRecord
  test_index : List ImageRecord
  validation_checks : ValidationResults
  patient_mapping : List (String × String)
deriving Repr, DecidableEq

def run_full_pipeline (pyHash : String → Int) (readCaption : String → Option String)
    (shuffle : List String → List String) (rows : List ImageRecord) :
    Except SplitError Artifacts := do
  let patient_data ← group_by_patient pyHash rows
  let disease_labels := extract_patient_disease_labels readCaption patient_data
  let stratKey := fun pid =>
    get_stratification_key ((disease_labels.lookup pid).getD ["unspecified"])
  let patient_keys := patient_data.map (fun p => p.1)
  let splits ← create_splits shuffle stratKey patient_keys (8/10) (1/10) (1/10)
  let (train_df, pd1) := patients_to_dataframe patient_data splits.train "train"
  let (val_df, pd2) := patients_to_dataframe pd1 splits.val "val"
  let (test_df, _pd3) := patients_to_dataframe pd2 splits.test "test"
  let sd : SplitsData :=
    { train := train_df, val := val_df, test := test_df,
      train_patients := splits.train, val_patients := splits.val,
      test_patients := splits.test }
  let results := validate_splits patient_keys sd
  pure
    { train_index := train_df, val_index := val_df, test_index := test_df,
      validation_checks := results,
      patient_mapping :=
        splits.train.map (fun pid => (pid, "train")) ++
          splits.val.map (fun pid => (pid, "val")) ++
          splits.test.map (fun pid => (pid, "test")) }

/-! ## Supporting lemmas -/

/-- Taking up to `min l.length k` is taking up to `k`. -/
lemma take_min_eq (l : List α) (k : ℕ) : l.take (min l.length k) = l.take k := by
  rw [List.take_eq_take]
  omega

/-- Dropping `min m k` from a list of length at most `m` is dropping `k`. -/
lemma drop_min_eq (t : List α) (m k : ℕ) (h : t.length ≤ m) :
    t.drop (min m k) = t.drop k := by
  rcases Nat.le_total m k with hmk | hkm
  · rw [min_eq_left hmk, List.drop_eq_nil_of_le h,
      List.drop_eq_nil_of_le (h.trans hmk)]
  · rw [min_eq_right hkm]

/-- For nonnegative `q`, Python `int` is the floor, and it is nonnegative. -/
lemma pyInt_of_nonneg {q : ℚ} (h : 0 ≤ q) : pyInt q = ⌊q⌋ ∧ 0 ≤ pyInt q := by
  have : ¬ q < 0 := not_lt.mpr h
  refine ⟨by simp [pyInt, this], ?_⟩
  simp only [pyInt, this, if_false]
  exact Int.floor_nonneg.mpr h

/-- The generic three-slice identity behind the per-group cut: the three
Python slices `l[:a]`, `l[a:a+b]`, `l[a+b:]` concatenate back to `l`. -/
lemma take_drop_three (l : List α) (a b : ℕ) :
    l.take a ++ ((l.take (a + b)).drop a ++ l.drop (a + b)) = l := by
  have h1 : l.take a = (l.take (a + b)).take a := by
    rw [List.take_take]
    congr 1
    omega
  rw [h1, ← List.append_assoc, List.take_append_drop, List.take_append_drop]

/-- With nonnegative train and val ratios, the three lists produced for one
stratification group concatenate to the shuffled group. -/
lemma splitGroup_append (shuffle : List String → List String) {tr vr : ℚ}
    (htr : 0 ≤ tr) (hvr : 0 ≤ vr) (g : List String) :
    (splitGroup shuffle tr vr g).1 ++
      ((splitGroup shuffle tr vr g).2.1 ++ (splitGroup shuffle tr vr g).2.2) =
      shuffle g := by
  have hA := pyInt_of_nonneg (q := (g.length : ℚ) * tr)
    (mul_nonneg (by positivity) htr)
  have hB := pyInt_of_nonneg (q := (g.length : ℚ) * vr)
    (mul_nonneg (by positivity) hvr)
  set A := pyInt ((g.length : ℚ) * tr) with hAdef
  set B := pyInt ((g.length : ℚ) * vr) with hBdef
  have hA0 : 0 ≤ A := hA.2
  have hB0 : 0 ≤ B := hB.2
  have hAB : ¬ A + B < 0 := by omega
  have hA' : ¬ A < 0 := by omega
  simp only [splitGroup, pySliceTo, pySlice, pySliceFrom, pyIndex, hA', hAB,
    if_false]
  rw [Int.toNat_add hA0 hB0]
  set sh := shuffle g
  set a := A.toNat
  set b := B.toNat
  rw [take_min_eq, take_min_eq,
    drop_min_eq (sh.take (a + b)) sh.length a (List.take_sublist _ _).length_le,
    drop_min_eq sh sh.length (a + b) le_rfl]
  exact take_drop_three sh a b

/-- The members of the key-grouped association list are a permutation of the
input (the grouping loses and duplicates nothing). -/
lemma groupByKeyAux_flatMap_perm (key : String → String) :
    ∀ n (l : List String), l.length ≤ n →
      ((groupByKeyAux key n l).flatMap (fun g => g.2)).Perm l := by
  intro n
  induction n with
  | zero =>
    intro l hl
    have : l = [] := List.length_eq_zero.mp (Nat.le_zero.mp hl)
    subst this
    simp [groupByKeyAux]
  | succ n ih =>
    intro l hl
    match l with
    | [] => simp [groupByKeyAux]
    | x :: xs =>
      have hlen : (xs.filter (fun y => key y != key x)).length ≤ n := by
        have h1 := List.length_filter_le (fun y => key y != key x) xs
        simp only [List.length_cons] at hl
        omega
      have hrec := ih (xs.filter (fun y => key y != key x)) hlen
      simp only [groupByKeyAux, List.flatMap_cons, List.cons_append]
      refine List.Perm.cons x ?_
      refine List.Perm.trans (List.Perm.append_left _ hrec) ?_
      have hne : (xs.filter (fun y => key y != key x)) =
          (xs.filter (fun y => !(key y == key x))) := rfl
      rw [hne]
      exact List.filter_append_perm _ xs

lemma groupByKey_flatMap_perm (key : String → String) (l : List String) :
    ((groupByKey key l).flatMap (fun g => g.2)).Perm l :=
  groupByKeyAux_flatMap_perm key l.length l le_rfl

/-- Concatenating the three per-group projections over a group list is a
permutation of the concatenated groups, provided each group's three parts
are a permutation of the group. -/
lemma flatMap_three_perm (gs : List (String × List String))
    (f : List String → List String × List String × List String)
    (hf : ∀ g ∈ gs, ((f g.2).1 ++ ((f g.2).2.1 ++ (f g.2).2.2)).Perm g.2) :
    ((gs.flatMap (fun g => (f g.2).1)) ++
      ((gs.flatMap (fun g => (f g.2).2.1)) ++ (gs.flatMap (fun g => (f g.2).2.2)))).Perm
      (gs.flatMap (fun g => g.2)) := by
  induction gs with
  | nil => simp
  | cons g gs ihg =>
    have h1 := hf g (List.mem_cons_self g gs)
    have h2 := ihg (fun g' hg' => hf g' (List.mem_cons_of_mem g hg'))
    simp only [List.flatMap_cons]
    rw [← Multiset.coe_eq_coe] at h1 h2 ⊢
    simp only [← Multiset.coe_add] at h1 h2 ⊢
    rw [← h1, ← h2]
    ac_rfl

/-- `stratified_split_patients` succeeds on ratios passing the entry check,
and for nonnegative train/val ratios and a permuting shuffle the three output
lists concatenate to a permutation of the input identifiers. -/
lemma stratified_split_patients_perm (shuffle : List String → List String)
    (hsh : ∀ l, (shuffle l).Perm l) (stratKey : String → String)
    (ids : List String) {tr vr te : ℚ} (htr : 0 ≤ tr) (hvr : 0 ≤ vr)
    (hsum : |tr + vr + te - 1| < 1/1000) :
    ∃ s, stratified_split_patients shuffle stratKey ids tr vr te = .ok s ∧
      (s.train ++ (s.val ++ s.test)).Perm ids := by
  refine ⟨_, by rw [stratified_split_patients, if_pos hsum], ?_⟩
  refine List.Perm.trans
    (flatMap_three_perm (groupByKey stratKey ids) (splitGroup shuffle tr vr) ?_)
    (groupByKey_flatMap_perm stratKey ids)
  intro g _
  rw [splitGroup_append shuffle htr hvr g.2]
  exact hsh g.2

/-- A permutation of a duplicate-free list, presented as three concatenated
chunks, has pairwise disjoint chunks. -/
lemma perm_nodup_disjoint {T V E ids : List String}
    (hperm : (T ++ (V ++ E)).Perm ids) (hnd : ids.Nodup) :
    T.Disjoint V ∧ T.Disjoint E ∧ V.Disjoint E := by
  have h := (hperm.symm.nodup hnd)
  rw [List.nodup_append] at h
  obtain ⟨-, hVE, hTVE⟩ := h
  rw [List.disjoint_append_right] at hTVE
  rw [List.nodup_append] at hVE
  exact ⟨hTVE.1, hTVE.2, hVE.2.2⟩

/-- Evaluate `pyInt` on a nonnegative rational from floor bounds. -/
lemma pyInt_eval_nonneg {q : ℚ} {z : ℤ} (h1 : (z:ℚ) ≤ q) (h2 : q < z + 1)
    (h0 : 0 ≤ q) : pyInt q = z := by
  rw [pyInt, if_neg (not_lt.mpr h0), Int.floor_eq_iff]
  exact ⟨h1, h2⟩

/-- `pyInt` is the identity on integers. -/
lemma pyInt_intCast (z : ℤ) : pyInt ((z : ℚ)) = z := by
  rcases lt_or_le (z:ℚ) 0 with h | h
  · rw [pyInt, if_pos h, Int.ceil_intCast]
  · rw [pyInt, if_neg (not_lt.mpr h), Int.floor_intCast]

lemma pyInt_eq_of_cast {q : ℚ} {z : ℤ} (h : q = (z : ℚ)) : pyInt q = z := by
  rw [h, pyInt_intCast]

/-- Rewrite a concrete `splitGroup` application once its two `int(...)` cut
values are known. -/
lemma splitGroup_eq (shuffle : List String → List String) (tr vr : ℚ)
    (g : List String) (A B : ℤ)
    (hA : pyInt ((g.length : ℚ) * tr) = A) (hB : pyInt ((g.length : ℚ) * vr) = B) :
    splitGroup shuffle tr vr g =
      (pySliceTo (shuffle g) A, pySlice (shuffle g) A (A + B),
        pySliceFrom (shuffle g) (A + B)) := by
  simp [splitGroup, hA, hB]

/-- A string starting with `"chexpert_"` does not start with
`"radiopaedia_"`, and conversely. -/
lemma startswith_exclusive {k : String} :
    ¬(pyStartswith k "chexpert_" = true ∧ pyStartswith k "radiopaedia_" = true) := by
  rintro ⟨h1, h2⟩
  rw [pyStartswith, List.isPrefixOf_iff_prefix] at h1 h2
  obtain ⟨t1, ht1⟩ := h1
  obtain ⟨t2, ht2⟩ := h2
  rw [← ht2] at ht1
  have hc : "chexpert_".data = 'c' :: "hexpert_".data := rfl
  have hr : "radiopaedia_".data = 'r' :: "adiopaedia_".data := rfl
  rw [hc, hr, List.cons_append, List.cons_append] at ht1
  exact absurd (List.head_eq_of_cons_eq ht1) (by decide)

/-- On a list of keys each carrying one of the two source prefixes, the two
prefix filters used by `create_splits` partition the list. -/
lemma filter_sources_perm (keys : List String)
    (hpre : ∀ k ∈ keys, pyStartswith k "chexpert_" = true ∨
      pyStartswith k "radiopaedia_" = true) :
    (keys.filter (fun pid => pyStartswith pid "chexpert_") ++
      keys.filter (fun pid => pyStartswith pid "radiopaedia_")).Perm keys := by
  have hcongr : keys.filter (fun pid => pyStartswith pid "radiopaedia_") =
      keys.filter (fun pid => !(pyStartswith pid "chexpert_")) := by
    refine List.filter_congr ?_
    intro k hk
    rcases hpre k hk with h | h
    · have hr : pyStartswith k "radiopaedia_" = false := by
        rcases Bool.eq_false_or_eq_true (pyStartswith k "radiopaedia_") with h' | h'
        · exact absurd ⟨h, h'⟩ startswith_exclusive
        · exact h'
      rw [hr, h]
      rfl
    · have hcfalse : pyStartswith k "chexpert_" = false := by
        rcases Bool.eq_false_or_eq_true (pyStartswith k "chexpert_") with h' | h'
        · exact absurd ⟨h', h⟩ startswith_exclusive
        · exact h'
      rw [h, hcfalse]
      rfl
  rw [hcongr]
  exact List.filter_append_perm _ keys

/-- `create_splits` succeeds whenever the ratio triple passes the allocator's
entry check, and under nonnegative train/val ratios, a permuting shuffle and
source-prefixed keys its combined output is a permutation of the input keys. -/
lemma create_splits_perm (shuffle : List String → List String)
    (hsh : ∀ l, (shuffle l).Perm l) (stratKey : String → String)
    (keys : List String) {tr vr te : ℚ} (htr : 0 ≤ tr) (hvr : 0 ≤ vr)
    (hsum : |tr + vr + te - 1| < 1/1000)
    (hpre : ∀ k ∈ keys, pyStartswith k "chexpert_" = true ∨
      pyStartswith k "radiopaedia_" = true) :
    ∃ c, create_splits shuffle stratKey keys tr vr te = .ok c ∧
      (c.train ++ (c.val ++ c.test)).Perm keys := by
  obtain ⟨s1, hs1, hp1⟩ := stratified_split_patients_perm shuffle hsh stratKey
    (keys.filter (fun pid => pyStartswith pid "chexpert_")) htr hvr hsum
  obtain ⟨s2, hs2, hp2⟩ := stratified_split_patients_perm shuffle hsh stratKey
    (keys.filter (fun pid => pyStartswith pid "radiopaedia_")) htr hvr hsum
  refine ⟨_, by rw [create_splits, hs1]; rw [hs2]; rfl, ?_⟩
  refine List.Perm.trans ?_ (filter_sources_perm keys hpre)
  rw [← Multiset.coe_eq_coe] at hp1 hp2 ⊢
  simp only [← Multiset.coe_add] at hp1 hp2 ⊢
  rw [← hp1, ← hp2]
  ac_rfl

/-- With nonnegative train/val ratios the per-group slices are plain
`take`/`drop` at the `floor` cut points. -/
lemma splitGroup_nonneg_eq (shuffle : List String → List String) {tr vr : ℚ}
    (htr : 0 ≤ tr) (hvr : 0 ≤ vr) (g : List String) :
    splitGroup shuffle tr vr g =
      ((shuffle g).take ⌊(g.length : ℚ) * tr⌋₊,
       ((shuffle g).drop ⌊(g.length : ℚ) * tr⌋₊).take ⌊(g.length : ℚ) * vr⌋₊,
       (shuffle g).drop (⌊(g.length : ℚ) * tr⌋₊ + ⌊(g.length : ℚ) * vr⌋₊)) := by
  have hA := pyInt_of_nonneg (q := (g.length : ℚ) * tr)
    (mul_nonneg (by positivity) htr)
  have hB := pyInt_of_nonneg (q := (g.length : ℚ) * vr)
    (mul_nonneg (by positivity) hvr)
  set A := pyInt ((g.length : ℚ) * tr) with hAdef
  set B := pyInt ((g.length : ℚ) * vr) with hBdef
  have hA0 : 0 ≤ A := hA.2
  have hB0 : 0 ≤ B := hB.2
  have hAB : ¬ A + B < 0 := by omega
  have hA' : ¬ A < 0 := by omega
  have hfl1 : ⌊(g.length : ℚ) * tr⌋₊ = A.toNat := by
    show ⌊(g.length : ℚ) * tr⌋.toNat = A.toNat
    rw [← hA.1]
  have hfl2 : ⌊(g.length : ℚ) * vr⌋₊ = B.toNat := by
    show ⌊(g.length : ℚ) * vr⌋.toNat = B.toNat
    rw [← hB.1]
  simp only [splitGroup, pySliceTo, pySlice, pySliceFrom, pyIndex, hA', hAB,
    if_false, hfl1, hfl2]
  rw [Int.toNat_add hA0 hB0]
  set sh := shuffle g
  set a := A.toNat
  set b := B.toNat
  rw [take_min_eq, take_min_eq,
    drop_min_eq (sh.take (a + b)) sh.length a (List.take_sublist _ _).length_le,
    drop_min_eq sh sh.length (a + b) le_rfl, List.drop_take]
  have : a + b - a = b := by omega
  rw [this]

/-! ## Claims -/

/-- C1 counterexample: the entry check `abs(sum - 1.0) < 0.001` also accepts
negative ratios (here `-0.1, -0.1, 1.2`, summing to exactly 1), and Python's
negative slice indices then produce overlapping outputs: on ten distinct
identifiers in one stratification group, `"p8"` lands in both `train` and
`test`, so the outputs are not pairwise disjoint and `"p8"` appears twice. -/
theorem claim_C1_counterexample :
    (|(-1/10 : ℚ) + (-1/10) + (12/10) - 1| < 1/1000) ∧
    stratified_split_patients id (fun _ => "g")
      ["p0","p1","p2","p3","p4","p5","p6","p7","p8","p9"]
      (-1/10) (-1/10) (12/10) =
      .ok { train := ["p0","p1","p2","p3","p4","p5","p6","p7","p8"],
            val := [], test := ["p8","p9"] } ∧
    ¬ (["p0","p1","p2","p3","p4","p5","p6","p7","p8"] : List String).Disjoint
      ["p8","p9"] := by
  refine ⟨by norm_num, ?_,
    fun h => absurd (by decide : ("p8" : String) ∈ (["p8","p9"] : List String))
      (h (by decide))⟩
  rw [stratified_split_patients, if_pos (by norm_num)]
  have hg : groupByKey (fun _ => "g")
      ["p0","p1","p2","p3","p4","p5","p6","p7","p8","p9"] =
      [("g", ["p0","p1","p2","p3","p4","p5","p6","p7","p8","p9"])] := by decide
  simp only [hg, List.flatMap_cons, List.flatMap_nil, List.append_nil]
  rw [splitGroup_eq id (-1/10) (-1/10) _ (-1) (-1)
    (pyInt_eq_of_cast (by norm_num)) (pyInt_eq_of_cast (by norm_num))]
  decide

/-- C1 (amended: the ratio triple must in addition be nonnegative; the entry
check alone also admits negative ratios, for which disjointness fails, see
the counterexample): for duplicate-free identifiers, any permuting shuffle
and any nonnegative ratio triple passing the entry check, the allocator's
three outputs are pairwise disjoint and their concatenation is a permutation
of the input (every identifier exactly once); the same holds for the combined
per-source split of `create_splits` on source-prefixed patient keys. -/
theorem claim_C1_partition (shuffle : List String → List String)
    (hsh : ∀ l, (shuffle l).Perm l) (stratKey : String → String)
    (ids : List String) (hnd : ids.Nodup) {tr vr te : ℚ}
    (htr : 0 ≤ tr) (hvr : 0 ≤ vr) (hsum : |tr + vr + te - 1| < 1/1000)
    (hpre : ∀ k ∈ ids, pyStartswith k "chexpert_" = true ∨
      pyStartswith k "radiopaedia_" = true) :
    (∃ s, stratified_split_patients shuffle stratKey ids tr vr te = .ok s ∧
      (s.train ++ (s.val ++ s.test)).Perm ids ∧
      s.train.Disjoint s.val ∧ s.train.Disjoint s.test ∧ s.val.Disjoint s.test) ∧
    (∃ c, create_splits shuffle stratKey ids tr vr te = .ok c ∧
      (c.train ++ (c.val ++ c.test)).Perm ids ∧
      c.train.Disjoint c.val ∧ c.train.Disjoint c.test ∧ c.val.Disjoint c.test) := by
  constructor
  · obtain ⟨s, hs, hp⟩ := stratified_split_patients_perm shuffle hsh stratKey ids
      htr hvr hsum
    obtain ⟨d1, d2, d3⟩ := perm_nodup_disjoint hp hnd
    exact ⟨s, hs, hp, d1, d2, d3⟩
  · obtain ⟨c, hc, hp⟩ := create_splits_perm shuffle hsh stratKey ids htr hvr
      hsum hpre
    obtain ⟨d1, d2, d3⟩ := perm_nodup_disjoint hp hnd
    exact ⟨c, hc, hp, d1, d2, d3⟩

/-- Witness for C1 at a concrete input: three source-prefixed patient ids,
the default ratios `0.8/0.1/0.1`, identity shuffle. -/
theorem claim_C1_partition_witness :
    (∃ s, stratified_split_patients id (fun _ => "unspecified")
        ["chexpert_patient1", "chexpert_patient2", "radiopaedia_5"]
        (8/10) (1/10) (1/10) = .ok s ∧
      (s.train ++ (s.val ++ s.test)).Perm
        ["chexpert_patient1", "chexpert_patient2", "radiopaedia_5"] ∧
      s.train.Disjoint s.val ∧ s.train.Disjoint s.test ∧ s.val.Disjoint s.test) ∧
    (∃ c, create_splits id (fun _ => "unspecified")
        ["chexpert_patient1", "chexpert_patient2", "radiopaedia_5"]
        (8/10) (1/10) (1/10) = .ok c ∧
      (c.train ++ (c.val ++ c.test)).Perm
        ["chexpert_patient1", "chexpert_patient2", "radiopaedia_5"] ∧
      c.train.Disjoint c.val ∧ c.train.Disjoint c.test ∧ c.val.Disjoint c.test) :=
  claim_C1_partition id (fun l => List.Perm.refl l) (fun _ => "unspecified")
    ["chexpert_patient1", "chexpert_patient2", "radiopaedia_5"] (by decide)
    (by norm_num) (by norm_num) (by norm_num) (by decide)

/-- C2: for every stratification group, with nonnegative ratios, the loop
body assigns the first `floor(n*train_ratio)` shuffled identifiers to train,
the next `floor(n*val_ratio)` to val, and all remaining identifiers to test,
and (for a permuting shuffle) the three parts together are a permutation of
the group: every member is allocated even when the ratios do not divide `n`
evenly. -/
theorem claim_C2_group_cuts (shuffle : List String → List String)
    (hsh : ∀ l, (shuffle l).Perm l) {tr vr : ℚ} (htr : 0 ≤ tr) (hvr : 0 ≤ vr)
    (g : List String) :
    (splitGroup shuffle tr vr g).1 = (shuffle g).take ⌊(g.length : ℚ) * tr⌋₊ ∧
    (splitGroup shuffle tr vr g).2.1 =
      ((shuffle g).drop ⌊(g.length : ℚ) * tr⌋₊).take ⌊(g.length : ℚ) * vr⌋₊ ∧
    (splitGroup shuffle tr vr g).2.2 =
      (shuffle g).drop (⌊(g.length : ℚ) * tr⌋₊ + ⌊(g.length : ℚ) * vr⌋₊) ∧
    ((splitGroup shuffle tr vr g).1 ++
      ((splitGroup shuffle tr vr g).2.1 ++ (splitGroup shuffle tr vr g).2.2)).Perm g := by
  have heq := splitGroup_nonneg_eq shuffle htr hvr g
  refine ⟨by rw [heq], by rw [heq], by rw [heq], ?_⟩
  rw [splitGroup_append shuffle htr hvr g]
  exact hsh g

/-- Witness for C2: a group of three identifiers with ratios `0.8/0.1/0.1`
(which do not divide 3 evenly: cuts at `floor(2.4)=2` and `floor(0.3)=0`,
the slack going to test). -/
theorem claim_C2_group_cuts_witness :
    (splitGroup id (8/10) (1/10) ["a","b","c"]).1 =
      (id ["a","b","c"]).take ⌊((["a","b","c"] : List String).length : ℚ) * (8/10)⌋₊ ∧
    (splitGroup id (8/10) (1/10) ["a","b","c"]).2.1 =
      ((id ["a","b","c"]).drop ⌊((["a","b","c"] : List String).length : ℚ) * (8/10)⌋₊).take
        ⌊((["a","b","c"] : List String).length : ℚ) * (1/10)⌋₊ ∧
    (splitGroup id (8/10) (1/10) ["a","b","c"]).2.2 =
      (id ["a","b","c"]).drop
        (⌊((["a","b","c"] : List String).length : ℚ) * (8/10)⌋₊ +
          ⌊((["a","b","c"] : List String).length : ℚ) * (1/10)⌋₊) ∧
    ((splitGroup id (8/10) (1/10) ["a","b","c"]).1 ++
      ((splitGroup id (8/10) (1/10) ["a","b","c"]).2.1 ++
        (splitGroup id (8/10) (1/10) ["a","b","c"]).2.2)).Perm ["a","b","c"] :=
  claim_C2_group_cuts id (fun l => List.Perm.refl l) (by norm_num) (by norm_num)
    ["a","b","c"]

/-- On a recognized source, `extract_patient_id` never raises. -/
lemma extract_patient_id_ok (pyHash : String → Int) (filename source : String)
    (h : source = "CheXpert" ∨ source = "Radiopaedia") :
    ∃ pid, extract_patient_id pyHash filename source = .ok pid := by
  rcases h with h | h <;> subst h
  · rw [extract_patient_id, if_pos rfl]
    cases searchLitDigits "patient".data filename.data with
    | some ds => exact ⟨_, rfl⟩
    | none => exact ⟨_, rfl⟩
  · rw [extract_patient_id, if_neg (by decide), if_pos rfl]
    cases searchLitDigits "radiopaedia_".data filename.data with
    | some ds => exact ⟨_, rfl⟩
    | none => exact ⟨_, rfl⟩

lemma group_by_patient_ok_aux (pyHash : String → Int) (rows : List ImageRecord)
    (hsrc : ∀ r ∈ rows, r.source = "CheXpert" ∨ r.source = "Radiopaedia") :
    ∀ acc, ∃ pd, rows.foldlM
      (fun acc row => do
        let pid ← extract_patient_id pyHash row.filename row.source
        pure (insertGroup acc pid { row with patient_id := some pid }))
      acc = Except.ok pd := by
  induction rows with
  | nil => exact fun acc => ⟨acc, rfl⟩
  | cons r rs ih =>
    intro acc
    obtain ⟨pid, hpid⟩ := extract_patient_id_ok pyHash r.filename r.source
      (hsrc r (List.mem_cons_self r rs))
    obtain ⟨pd, hpd⟩ := ih (fun r' hr' => hsrc r' (List.mem_cons_of_mem r hr'))
      (insertGroup acc pid { r with patient_id := some pid })
    refine ⟨pd, ?_⟩
    simp only [List.foldlM]
    rw [hpid]
    exact hpd

/-- Grouping succeeds whenever every row carries a recognized source tag. -/
lemma group_by_patient_ok (pyHash : String → Int) (rows : List ImageRecord)
    (hsrc : ∀ r ∈ rows, r.source = "CheXpert" ∨ r.source = "Radiopaedia") :
    ∃ pd, group_by_patient pyHash rows = .ok pd :=
  group_by_patient_ok_aux pyHash rows hsrc []

/-- Membership in the extractor's match list is existence of a matching
keyword for that tag. -/
lemma mem_filter_map_fst (text : String) (d : String) :
    (d ∈ (disease_keywords.filter
        (fun p => p.2.any (fun k => decide (pyInStr k (pyLower text))))).map Prod.fst) ↔
      ∃ kws, (d, kws) ∈ disease_keywords ∧ ∃ k ∈ kws, pyInStr k (pyLower text) := by
  simp only [List.mem_map, List.mem_filter, List.any_eq_true, decide_eq_true_eq]
  constructor
  · rintro ⟨⟨tag, kws⟩, ⟨hmem, k, hk, hin⟩, rfl⟩
    exact ⟨kws, hmem, k, hk, hin⟩
  · rintro ⟨kws, hmem, k, hk, hin⟩
    exact ⟨(d, kws), ⟨hmem, k, hk, hin⟩, rfl⟩

/-- The extractor's match list is empty exactly when no keyword of any
taxonomy entry occurs in the lower-cased caption. -/
lemma extract_no_match_iff (text : String) :
    ((disease_keywords.filter
      (fun p => p.2.any (fun k => decide (pyInStr k (pyLower text))))).map
        Prod.fst).isEmpty = true ↔
    (∀ p ∈ disease_keywords, ∀ k ∈ p.2, ¬ pyInStr k (pyLower text)) := by
  rw [List.isEmpty_iff, List.map_eq_nil_iff, List.filter_eq_nil_iff]
  constructor
  · intro h p hmem k hk hin
    have := h p hmem
    simp only [List.any_eq_true, decide_eq_true_eq] at this
    exact this ⟨k, hk, hin⟩
  · intro h p hmem
    simp only [List.any_eq_true, decide_eq_true_eq]
    rintro ⟨k, hk, hin⟩
    exact h p hmem k hk hin

/-- C4: the extractor returns exactly the taxonomy tags one of whose keyword
phrases occurs as a substring of the lower-cased caption; the sentinel
`["unspecified"]` when nothing matches; the sentinel when the caption read
fails (the function is total, so nothing propagates past the caller); and the
result never contains a tag twice ("exactly the set"). -/
theorem claim_C4_label_extraction :
    (∀ text d, d ∈ extract_diseases_from_caption (some text) ↔
      ((∃ kws, (d, kws) ∈ disease_keywords ∧ ∃ k ∈ kws, pyInStr k (pyLower text)) ∨
       (d = "unspecified" ∧
         ∀ p ∈ disease_keywords, ∀ k ∈ p.2, ¬ pyInStr k (pyLower text)))) ∧
    (∀ text, (∀ p ∈ disease_keywords, ∀ k ∈ p.2, ¬ pyInStr k (pyLower text)) →
      extract_diseases_from_caption (some text) = ["unspecified"]) ∧
    extract_diseases_from_caption none = ["unspecified"] ∧
    (∀ r, (extract_diseases_from_caption r).Nodup) := by
  refine ⟨?_, ?_, rfl, ?_⟩
  · intro text d
    rw [extract_diseases_from_caption]
    by_cases hE : ((disease_keywords.filter
        (fun p => p.2.any (fun k => decide (pyInStr k (pyLower text))))).map
          Prod.fst).isEmpty = true
    · rw [if_pos hE, List.mem_singleton]
      constructor
      · intro hd
        exact Or.inr ⟨hd, (extract_no_match_iff text).mp hE⟩
      · rintro (⟨kws, hmem, k, hk, hin⟩ | ⟨hd, -⟩)
        · exact absurd hin ((extract_no_match_iff text).mp hE (d, kws) hmem k hk)
        · exact hd
    · rw [if_neg hE]
      have hnm : ¬ (∀ p ∈ disease_keywords, ∀ k ∈ p.2, ¬ pyInStr k (pyLower text)) :=
        fun h => hE ((extract_no_match_iff text).mpr h)
      constructor
      · intro hd
        exact Or.inl ((mem_filter_map_fst text d).mp hd)
      · rintro (h | ⟨-, hall⟩)
        · exact (mem_filter_map_fst text d).mpr h
        · exact absurd hall hnm
  · intro text hall
    rw [extract_diseases_from_caption, if_pos ((extract_no_match_iff text).mpr hall)]
  · intro r
    match r with
    | none => exact List.nodup_singleton _
    | some text =>
      rw [extract_diseases_from_caption]
      by_cases hE : ((disease_keywords.filter
          (fun p => p.2.any (fun k => decide (pyInStr k (pyLower text))))).map
            Prod.fst).isEmpty = true
      · rw [if_pos hE]
        exact List.nodup_singleton _
      · rw [if_neg hE]
        refine List.Nodup.sublist (List.Sublist.map Prod.fst (List.filter_sublist _)) ?_
        decide

/-- Witness for C4: a caption matching nothing yields the sentinel; the
mixed-case caption "No acute findings." matches the `normal` tag via its
keyword "no acute". -/
theorem claim_C4_label_extraction_witness :
    extract_diseases_from_caption (some "xyz") = ["unspecified"] ∧
    "normal" ∈ extract_diseases_from_caption (some "No acute findings.") :=
  ⟨claim_C4_label_extraction.2.1 "xyz" (by decide),
   (claim_C4_label_extraction.1 "No acute findings." "normal").mpr
     (Or.inl ⟨["no acute", "normal", "clear lungs", "unremarkable"], by decide,
       "no acute", by decide, by decide⟩)⟩

/-- `find?` returns the match of minimal index: the priority loop picks the
highest-priority tag. -/
lemma find?_indexOf_min {α : Type} [DecidableEq α] (p : α → Bool) :
    ∀ (l : List α) (f : α), l.find? p = some f →
      ∀ d ∈ l, p d = true → l.indexOf f ≤ l.indexOf d := by
  intro l
  induction l with
  | nil => intro f hf; simp at hf
  | cons x xs ih =>
    intro f hf d hd hpd
    by_cases hx : p x = true
    · rw [List.find?_cons_of_pos _ hx] at hf
      injection hf with hf
      subst hf
      rw [List.indexOf_cons_self]
      exact Nat.zero_le _
    · rw [List.find?_cons_of_neg _ hx] at hf
      have hfx : x ≠ f := by
        rintro rfl
        exact hx (List.find?_some hf)
      have hdx : x ≠ d := by
        rintro rfl
        exact hx hpd
      rcases List.mem_cons.mp hd with rfl | hd'
      · exact absurd rfl (Ne.symm hdx)
      · rw [List.indexOf_cons_ne _ hfx, List.indexOf_cons_ne _ hdx]
        exact Nat.succ_le_succ (ih f hf d hd' hpd)

/-- C5: the resolver returns `"unspecified"` on the empty set; on any
nonempty disease set drawn from the taxonomy it returns a member of the set of
minimal index in the fixed priority list (exactly one tag, chosen by the total
order); the priority list is duplicate-free with `"normal"` next-to-last
(index 8) and `"unspecified"` last (index 9 of 10).  Purity is by
construction: the resolver is a function of the disease set alone. -/
theorem claim_C5_strat_key :
    get_stratification_key [] = "unspecified" ∧
    (∀ diseases : List String, diseases ≠ [] →
      (∀ d ∈ diseases, d ∈ priority_diseases) →
      get_stratification_key diseases ∈ diseases ∧
      get_stratification_key diseases ∈ priority_diseases ∧
      (∀ d ∈ diseases, priority_diseases.indexOf (get_stratification_key diseases) ≤
        priority_diseases.indexOf d)) ∧
    priority_diseases.Nodup ∧
    priority_diseases.indexOf "normal" = 8 ∧
    priority_diseases.indexOf "unspecified" = 9 ∧
    priority_diseases.length = 10 := by
  refine ⟨rfl, ?_, by decide, by decide, by decide, by decide⟩
  intro diseases hne hsub
  obtain ⟨d0, hd0⟩ := List.exists_mem_of_ne_nil diseases hne
  have hsome : (priority_diseases.find? (fun d => diseases.contains d)).isSome = true := by
    rw [List.find?_isSome]
    exact ⟨d0, hsub d0 hd0, List.elem_eq_true_of_mem hd0⟩
  obtain ⟨f, hf⟩ := Option.isSome_iff_exists.mp hsome
  have hkey : get_stratification_key diseases = f := by
    rw [get_stratification_key, hf]
  refine ⟨?_, ?_, ?_⟩
  · rw [hkey]
    have hc : diseases.contains f = true := List.find?_some hf
    exact List.mem_of_elem_eq_true hc
  · rw [hkey]
    exact List.mem_of_find?_eq_some hf
  · intro d hd
    rw [hkey]
    exact find?_indexOf_min _ priority_diseases f hf d (hsub d hd)
      (List.elem_eq_true_of_mem hd)

/-- Witness for C5: on `{normal, edema}` the resolver picks the
priority-minimal member (`edema`, index 4, beats `normal`, index 8). -/
theorem claim_C5_strat_key_witness :
    get_stratification_key ["normal", "edema"] ∈ (["normal", "edema"] : List String) ∧
    get_stratification_key ["normal", "edema"] ∈ priority_diseases ∧
    (∀ d ∈ (["normal", "edema"] : List String),
      priority_diseases.indexOf (get_stratification_key ["normal", "edema"]) ≤
        priority_diseases.indexOf d) :=
  claim_C5_strat_key.2.1 ["normal", "edema"] (by decide) (by decide)

/-- C6 (evidence for the code bug): the fallback identifier for an
unparseable CheXpert filename embeds the value of Python's built-in `hash`,
which is salted per process (`PYTHONHASHSEED`); two runs whose salts hash
`"weird.jpg"` differently (modelled by two hash functions) produce different
patient identifiers for the same inventory, so the `patient_mapping` artifact
is not byte-identical across runs.  With the hash fixed, the identifier is
fixed — the instability comes only from the salt. -/
theorem claim_C6_hash_fallback_unstable :
    extract_patient_id (fun _ => 0) "weird.jpg" "CheXpert" =
      .ok "chexpert_unknown_0" ∧
    extract_patient_id (fun _ => 1) "weird.jpg" "CheXpert" =
      .ok "chexpert_unknown_1" ∧
    extract_patient_id (fun _ => 0) "weird.jpg" "CheXpert" ≠
      extract_patient_id (fun _ => 1) "weird.jpg" "CheXpert" := by
  refine ⟨rfl, rfl, ?_⟩
  intro h
  have h0 : extract_patient_id (fun _ => 0) "weird.jpg" "CheXpert" =
      .ok "chexpert_unknown_0" := rfl
  have h1 : extract_patient_id (fun _ => 1) "weird.jpg" "CheXpert" =
      .ok "chexpert_unknown_1" := rfl
  rw [h0, h1] at h
  simp at h

/-- C9 counterexample: expanding a one-patient group into image rows changes
the stored patient groups — the record held in `patient_data` acquires
`split = "train"` in place, so the state after `patients_to_dataframe` is not
the state before (the spec promised new, distinct records and an unmodified
input structure). -/
theorem claim_C9_counterexample :
    (patients_to_dataframe
      [("p", [{ filename := "f", source := "CheXpert", image_path := "i",
                caption_path := "c", has_caption := true }])]
      ["p"] "train").2 ≠
    [("p", [{ filename := "f", source := "CheXpert", image_path := "i",
              caption_path := "c", has_caption := true }])] := by decide

/-- C9 (amended): the expansion stamps the `split` field into the stored
patient records in place (the split tables share those records), but touches
nothing else — erasing the `split` field recovers the original state, and
stamping preserves every other field; the Validator is read-only (its state
out equals its state in) and idempotent (re-running it on the state it
returned yields the same report). -/
theorem claim_C9_frame (pd : List (String × List ImageRecord))
    (pl : List String) (name : String) (keys : List String) (s : SplitsData) :
    ((patients_to_dataframe pd pl name).2).map
        (fun p => (p.1, p.2.map clearSplit)) =
      pd.map (fun p => (p.1, p.2.map clearSplit)) ∧
    (∀ r : ImageRecord, (stampSplit name r).filename = r.filename ∧
      (stampSplit name r).source = r.source ∧
      (stampSplit name r).image_path = r.image_path ∧
      (stampSplit name r).caption_path = r.caption_path ∧
      (stampSplit name r).has_caption = r.has_caption ∧
      (stampSplit name r).patient_id = r.patient_id ∧
      (stampSplit name r).split = some name) ∧
    (validate_splits_run keys s).2 = s ∧
    (validate_splits_run keys ((validate_splits_run keys s).2)).1 =
      (validate_splits_run keys s).1 := by
  refine ⟨?_, fun r => ⟨rfl, rfl, rfl, rfl, rfl, rfl, rfl⟩, rfl, rfl⟩
  simp only [patients_to_dataframe, List.map_map]
  refine List.map_congr_left ?_
  intro p _
  by_cases hp : pl.contains p.1
  · simp only [Function.comp, hp, if_pos]
    simp [clearSplit, stampSplit, List.map_map, Function.comp]
  · simp only [Function.comp, hp, if_neg]
    simp

/-! ### Validator characterizations (for C7 and C8) -/

/-- The ratio check of `validate_splits` unfolded: it compares each split's
patient-set fraction against the hard-coded literals `0.80/0.10/0.10`. -/
lemma validate_ratio_iff (keys : List String) (s : SplitsData) :
    (validate_splits keys s).ratio_validation = true ↔
      (|(s.train_patients.toFinset.card : ℚ) /
          ((s.train_patients.toFinset.card + s.val_patients.toFinset.card +
            s.test_patients.toFinset.card : ℕ) : ℚ) - 80/100| < 5/100 ∧
       |(s.val_patients.toFinset.card : ℚ) /
          ((s.train_patients.toFinset.card + s.val_patients.toFinset.card +
            s.test_patients.toFinset.card : ℕ) : ℚ) - 10/100| < 5/100 ∧
       |(s.test_patients.toFinset.card : ℚ) /
          ((s.train_patients.toFinset.card + s.val_patients.toFinset.card +
            s.test_patients.toFinset.card : ℕ) : ℚ) - 10/100| < 5/100) := by
  simp only [validate_splits, Bool.and_eq_true, decide_eq_true_eq]
  rw [and_assoc]

/-- The source checks of `validate_splits` unfolded: a split passes exactly
when its image table carries exactly two distinct source tags. -/
lemma validate_sources_iff (keys : List String) (s : SplitsData) :
    ((validate_splits keys s).train_has_both_sources = true ↔
      (s.train.map (fun r => r.source)).dedup.length = 2) ∧
    ((validate_splits keys s).val_has_both_sources = true ↔
      (s.val.map (fun r => r.source)).dedup.length = 2) ∧
    ((validate_splits keys s).test_has_both_sources = true ↔
      (s.test.map (fun r => r.source)).dedup.length = 2) := by
  simp [validate_splits, beq_iff_eq]

/-- The overall verdict of `validate_splits` is the conjunction of all six
component checks. -/
lemma validate_overall_iff (keys : List String) (s : SplitsData) :
    (validate_splits keys s).overall_valid = true ↔
      ((validate_splits keys s).no_patient_overlap = true ∧
       (validate_splits keys s).ratio_validation = true ∧
       (validate_splits keys s).train_has_both_sources = true ∧
       (validate_splits keys s).val_has_both_sources = true ∧
       (validate_splits keys s).test_has_both_sources = true ∧
       (validate_splits keys s).all_patients_assigned = true) := by
  simp only [validate_splits, Bool.and_eq_true]
  tauto

/-- Deterministic companion of `create_splits_perm`: the combined output of a
successful `create_splits` run is a permutation of the input keys. -/
lemma create_splits_ok_perm (shuffle : List String → List String)
    (hsh : ∀ l, (shuffle l).Perm l) (stratKey : String → String)
    (keys : List String) {tr vr te : ℚ} (htr : 0 ≤ tr) (hvr : 0 ≤ vr)
    (hsum : |tr + vr + te - 1| < 1/1000)
    (hpre : ∀ k ∈ keys, pyStartswith k "chexpert_" = true ∨
      pyStartswith k "radiopaedia_" = true)
    (c : Splits3) (hc : create_splits shuffle stratKey keys tr vr te = .ok c) :
    (c.train ++ (c.val ++ c.test)).Perm keys := by
  obtain ⟨c', hc', hp⟩ := create_splits_perm shuffle hsh stratKey keys htr hvr hsum hpre
  rw [hc] at hc'
  injection hc' with h
  rw [← h] at hp
  exact hp

/-- A concrete allocator run used below: four CheXpert patients with invoked
ratios `0.5/0.25/0.25` split 2/1/1. -/
lemma demo_run_quarter :
    create_splits id (fun _ => "unspecified")
      ["chexpert_q0","chexpert_q1","chexpert_q2","chexpert_q3"]
      (1/2) (1/4) (1/4) =
      .ok { train := ["chexpert_q0","chexpert_q1"], val := ["chexpert_q2"],
            test := ["chexpert_q3"] } := by
  have hchex : stratified_split_patients id (fun _ => "unspecified")
      ["chexpert_q0","chexpert_q1","chexpert_q2","chexpert_q3"]
      (1/2) (1/4) (1/4) =
      .ok { train := ["chexpert_q0","chexpert_q1"], val := ["chexpert_q2"],
            test := ["chexpert_q3"] } := by
    rw [stratified_split_patients, if_pos (by norm_num)]
    have hg : groupByKey (fun _ => "unspecified")
        ["chexpert_q0","chexpert_q1","chexpert_q2","chexpert_q3"] =
        [("unspecified",
          ["chexpert_q0","chexpert_q1","chexpert_q2","chexpert_q3"])] := by
      decide
    simp only [hg, List.flatMap_cons, List.flatMap_nil, List.append_nil]
    rw [splitGroup_eq id (1/2) (1/4) _ 2 1
      (pyInt_eq_of_cast (by norm_num)) (pyInt_eq_of_cast (by norm_num))]
    decide
  have hradio : stratified_split_patients id (fun _ => "unspecified")
      ([] : List String) (1/2) (1/4) (1/4) =
      .ok { train := [], val := [], test := [] } := by
    rw [stratified_split_patients, if_pos (by norm_num)]
    rfl
  have hf1 : (["chexpert_q0","chexpert_q1","chexpert_q2","chexpert_q3"] :
      List String).filter (fun pid => pyStartswith pid "chexpert_") =
      ["chexpert_q0","chexpert_q1","chexpert_q2","chexpert_q3"] := by decide
  have hf2 : (["chexpert_q0","chexpert_q1","chexpert_q2","chexpert_q3"] :
      List String).filter (fun pid => pyStartswith pid "radiopaedia_") = [] := by
    decide
  rw [create_splits, hf1, hf2, hchex, hradio]
  rfl

/-- C7 counterexample: the allocator is invoked with ratios `0.5/0.25/0.25`
on four patients and produces the exact 2/1/1 split (each split's fraction
equals its invoked target, so the claim's condition holds with margin), yet
the Validator's ratio check reports `false`, because it compares the
fractions against the hard-coded defaults `0.80/0.10/0.10`. -/
theorem claim_C7_counterexample :
    create_splits id (fun _ => "unspecified")
      ["chexpert_q0","chexpert_q1","chexpert_q2","chexpert_q3"]
      (1/2) (1/4) (1/4) =
      .ok { train := ["chexpert_q0","chexpert_q1"], val := ["chexpert_q2"],
            test := ["chexpert_q3"] } ∧
    (|(2:ℚ)/4 - 1/2| < 5/100 ∧ |(1:ℚ)/4 - 1/4| < 5/100 ∧
      |(1:ℚ)/4 - 1/4| < 5/100) ∧
    (validate_splits ["chexpert_q0","chexpert_q1","chexpert_q2","chexpert_q3"]
      { train := [], val := [], test := [],
        train_patients := ["chexpert_q0","chexpert_q1"],
        val_patients := ["chexpert_q2"],
        test_patients := ["chexpert_q3"] }).ratio_validation = false := by
  refine ⟨demo_run_quarter, by norm_num, ?_⟩
  cases hb : (validate_splits ["chexpert_q0","chexpert_q1","chexpert_q2","chexpert_q3"]
      { train := [], val := [], test := [],
        train_patients := ["chexpert_q0","chexpert_q1"],
        val_patients := ["chexpert_q2"],
        test_patients := ["chexpert_q3"] }).ratio_validation
  · rfl
  · exfalso
    obtain ⟨h1, -, -⟩ := (validate_ratio_iff _ _).mp hb
    have hc1 : (["chexpert_q0","chexpert_q1"] : List String).toFinset.card = 2 := by
      decide
    have hc2 : (["chexpert_q2"] : List String).toFinset.card = 1 := by decide
    have hc3 : (["chexpert_q3"] : List String).toFinset.card = 1 := by decide
    dsimp only at h1
    rw [hc1, hc2, hc3, abs_lt] at h1
    have h2 := h1.1
    push_cast at h2
    norm_num at h2

/-- C7 (amended): for any completed run of `create_splits` (any invoked
ratio triple accepted by the entry check, nonnegative train/val ratios,
duplicate-free source-prefixed keys, permuting shuffle), the Validator's
ratio check passes if and only if each split's patient-count fraction of the
total is within 0.05 of the HARD-CODED defaults `0.8/0.1/0.1` — the invoked
ratios do not appear in the condition at all. -/
theorem claim_C7_ratio_check (shuffle : List String → List String)
    (hsh : ∀ l, (shuffle l).Perm l) (stratKey : String → String)
    (keys : List String) (hnd : keys.Nodup) {tr vr te : ℚ}
    (htr : 0 ≤ tr) (hvr : 0 ≤ vr) (hsum : |tr + vr + te - 1| < 1/1000)
    (hpre : ∀ k ∈ keys, pyStartswith k "chexpert_" = true ∨
      pyStartswith k "radiopaedia_" = true)
    (c : Splits3) (hc : create_splits shuffle stratKey keys tr vr te = .ok c)
    (tdf vdf sdf : List ImageRecord) :
    (validate_splits keys
      { train := tdf, val := vdf, test := sdf,
        train_patients := c.train, val_patients := c.val,
        test_patients := c.test }).ratio_validation = true ↔
      (|(c.train.length : ℚ) / (keys.length : ℚ) - 80/100| < 5/100 ∧
       |(c.val.length : ℚ) / (keys.length : ℚ) - 10/100| < 5/100 ∧
       |(c.test.length : ℚ) / (keys.length : ℚ) - 10/100| < 5/100) := by
  have hperm := create_splits_ok_perm shuffle hsh stratKey keys htr hvr hsum hpre c hc
  have hnodup : (c.train ++ (c.val ++ c.test)).Nodup := hperm.symm.nodup hnd
  rw [List.nodup_append] at hnodup
  obtain ⟨ht, hve, -⟩ := hnodup
  rw [List.nodup_append] at hve
  obtain ⟨hv, he, -⟩ := hve
  have hlen : c.train.length + c.val.length + c.test.length = keys.length := by
    have hl := hperm.length_eq
    simp only [List.length_append] at hl
    omega
  rw [validate_ratio_iff]
  dsimp only
  rw [List.toFinset_card_of_nodup ht, List.toFinset_card_of_nodup hv,
    List.toFinset_card_of_nodup he, hlen]

/-- A concrete allocator run with the default ratios: ten CheXpert patients
split 8/1/1. -/
lemma demo_run_default :
    create_splits id (fun _ => "unspecified")
      ["chexpert_p0","chexpert_p1","chexpert_p2","chexpert_p3","chexpert_p4",
       "chexpert_p5","chexpert_p6","chexpert_p7","chexpert_p8","chexpert_p9"]
      (8/10) (1/10) (1/10) =
      .ok { train := ["chexpert_p0","chexpert_p1","chexpert_p2","chexpert_p3",
              "chexpert_p4","chexpert_p5","chexpert_p6","chexpert_p7"],
            val := ["chexpert_p8"], test := ["chexpert_p9"] } := by
  have hchex : stratified_split_patients id (fun _ => "unspecified")
      ["chexpert_p0","chexpert_p1","chexpert_p2","chexpert_p3","chexpert_p4",
       "chexpert_p5","chexpert_p6","chexpert_p7","chexpert_p8","chexpert_p9"]
      (8/10) (1/10) (1/10) =
      .ok { train := ["chexpert_p0","chexpert_p1","chexpert_p2","chexpert_p3",
              "chexpert_p4","chexpert_p5","chexpert_p6","chexpert_p7"],
            val := ["chexpert_p8"], test := ["chexpert_p9"] } := by
    rw [stratified_split_patients, if_pos (by norm_num)]
    have hg : groupByKey (fun _ => "unspecified")
        ["chexpert_p0","chexpert_p1","chexpert_p2","chexpert_p3","chexpert_p4",
         "chexpert_p5","chexpert_p6","chexpert_p7","chexpert_p8","chexpert_p9"] =
        [("unspecified",
          ["chexpert_p0","chexpert_p1","chexpert_p2","chexpert_p3","chexpert_p4",
           "chexpert_p5","chexpert_p6","chexpert_p7","chexpert_p8","chexpert_p9"])] := by
      decide
    simp only [hg, List.flatMap_cons, List.flatMap_nil, List.append_nil]
    rw [splitGroup_eq id (8/10) (1/10) _ 8 1
      (pyInt_eq_of_cast (by norm_num)) (pyInt_eq_of_cast (by norm_num))]
    decide
  have hradio : stratified_split_patients id (fun _ => "unspecified")
      ([] : List String) (8/10) (1/10) (1/10) =
      .ok { train := [], val := [], test := [] } := by
    rw [stratified_split_patients, if_pos (by norm_num)]
    rfl
  have hf1 : (["chexpert_p0","chexpert_p1","chexpert_p2","chexpert_p3","chexpert_p4",
      "chexpert_p5","chexpert_p6","chexpert_p7","chexpert_p8","chexpert_p9"] :
      List String).filter (fun pid => pyStartswith pid "chexpert_") =
      ["chexpert_p0","chexpert_p1","chexpert_p2","chexpert_p3","chexpert_p4",
       "chexpert_p5","chexpert_p6","chexpert_p7","chexpert_p8","chexpert_p9"] := by
    decide
  have hf2 : (["chexpert_p0","chexpert_p1","chexpert_p2","chexpert_p3","chexpert_p4",
      "chexpert_p5","chexpert_p6","chexpert_p7","chexpert_p8","chexpert_p9"] :
      List String).filter (fun pid => pyStartswith pid "radiopaedia_") = [] := by
    decide
  rw [create_splits, hf1, hf2, hchex, hradio]
  rfl

/-- Witness for C7 at a concrete run: ten patients, invoked (= default)
ratios `0.8/0.1/0.1`, identity shuffle; the ratio check's condition is the
hard-coded one. -/
theorem claim_C7_ratio_check_witness :
    (validate_splits
      ["chexpert_p0","chexpert_p1","chexpert_p2","chexpert_p3","chexpert_p4",
       "chexpert_p5","chexpert_p6","chexpert_p7","chexpert_p8","chexpert_p9"]
      { train := [], val := [], test := [],
        train_patients := ["chexpert_p0","chexpert_p1","chexpert_p2","chexpert_p3",
          "chexpert_p4","chexpert_p5","chexpert_p6","chexpert_p7"],
        val_patients := ["chexpert_p8"],
        test_patients := ["chexpert_p9"] }).ratio_validation = true ↔
      (|((["chexpert_p0","chexpert_p1","chexpert_p2","chexpert_p3","chexpert_p4",
            "chexpert_p5","chexpert_p6","chexpert_p7"] : List String).length : ℚ) /
          (((["chexpert_p0","chexpert_p1","chexpert_p2","chexpert_p3","chexpert_p4",
            "chexpert_p5","chexpert_p6","chexpert_p7","chexpert_p8","chexpert_p9"] :
            List String).length : ℚ)) - 80/100| < 5/100 ∧
       |(((["chexpert_p8"] : List String).length : ℚ)) /
          (((["chexpert_p0","chexpert_p1","chexpert_p2","chexpert_p3","chexpert_p4",
            "chexpert_p5","chexpert_p6","chexpert_p7","chexpert_p8","chexpert_p9"] :
            List String).length : ℚ)) - 10/100| < 5/100 ∧
       |(((["chexpert_p9"] : List String).length : ℚ)) /
          (((["chexpert_p0","chexpert_p1","chexpert_p2","chexpert_p3","chexpert_p4",
            "chexpert_p5","chexpert_p6","chexpert_p7","chexpert_p8","chexpert_p9"] :
            List String).length : ℚ)) - 10/100| < 5/100) :=
  claim_C7_ratio_check id (fun l => List.Perm.refl l) (fun _ => "unspecified")
    ["chexpert_p0","chexpert_p1","chexpert_p2","chexpert_p3","chexpert_p4",
     "chexpert_p5","chexpert_p6","chexpert_p7","chexpert_p8","chexpert_p9"]
    (by decide) (by norm_num) (by norm_num) (by norm_num) (by decide)
    { train := ["chexpert_p0","chexpert_p1","chexpert_p2","chexpert_p3",
        "chexpert_p4","chexpert_p5","chexpert_p6","chexpert_p7"],
      val := ["chexpert_p8"], test := ["chexpert_p9"] }
    demo_run_default [] [] []

/-- C8 counterexample: a single-source (CheXpert-only) inventory of ten
patients, split 8/1/1 by a real allocator run.  Every split contains at least
one patient of every source present in the inventory (only `"CheXpert"`), so
the claim's coverage condition holds — yet each `*_has_both_sources` check is
`false`, because the code tests `len(sources) == 2`; and although the
overlap, ratio and completeness checks all pass, `overall_valid` is `false`:
the source-coverage violation does make the overall verdict fail.
(Records: `⟨filename, source, image_path, caption_path, has_caption,
patient_id, split⟩`; split data: `⟨train, val, test, train_patients,
val_patients, test_patients⟩`.) -/
theorem claim_C8_counterexample :
    create_splits id (fun _ => "unspecified")
      ["chexpert_p0","chexpert_p1","chexpert_p2","chexpert_p3","chexpert_p4",
       "chexpert_p5","chexpert_p6","chexpert_p7","chexpert_p8","chexpert_p9"]
      (8/10) (1/10) (1/10) =
      .ok ⟨["chexpert_p0","chexpert_p1","chexpert_p2","chexpert_p3",
            "chexpert_p4","chexpert_p5","chexpert_p6","chexpert_p7"],
           ["chexpert_p8"], ["chexpert_p9"]⟩ ∧
    ((([("chexpert_p0",
        [(⟨"f.jpg", "CheXpert", "i", "c", true, none, none⟩ : ImageRecord)])]).flatMap
          (fun p => p.2)).map (fun r => r.source)).dedup = ["CheXpert"] ∧
    (∀ src ∈ (["CheXpert"] : List String),
      src ∈ ((List.replicate 8
          (⟨"f.jpg", "CheXpert", "i", "c", true, none, some "train"⟩ : ImageRecord)).map
            (fun r => r.source)) ∧
      src ∈ ([(⟨"f.jpg", "CheXpert", "i", "c", true, none, some "val"⟩ : ImageRecord)].map
        (fun r => r.source)) ∧
      src ∈ ([(⟨"f.jpg", "CheXpert", "i", "c", true, none, some "test"⟩ : ImageRecord)].map
        (fun r => r.source))) ∧
    (validate_splits
      ["chexpert_p0","chexpert_p1","chexpert_p2","chexpert_p3","chexpert_p4",
       "chexpert_p5","chexpert_p6","chexpert_p7","chexpert_p8","chexpert_p9"]
      ⟨List.replicate 8 (⟨"f.jpg", "CheXpert", "i", "c", true, none, some "train"⟩ : ImageRecord),
       [(⟨"f.jpg", "CheXpert", "i", "c", true, none, some "val"⟩ : ImageRecord)],
       [(⟨"f.jpg", "CheXpert", "i", "c", true, none, some "test"⟩ : ImageRecord)],
       ["chexpert_p0","chexpert_p1","chexpert_p2","chexpert_p3",
        "chexpert_p4","chexpert_p5","chexpert_p6","chexpert_p7"],
       ["chexpert_p8"], ["chexpert_p9"]⟩).train_has_both_sources = false ∧
    (validate_splits
      ["chexpert_p0","chexpert_p1","chexpert_p2","chexpert_p3","chexpert_p4",
       "chexpert_p5","chexpert_p6","chexpert_p7","chexpert_p8","chexpert_p9"]
      ⟨List.replicate 8 (⟨"f.jpg", "CheXpert", "i", "c", true, none, some "train"⟩ : ImageRecord),
       [(⟨"f.jpg", "CheXpert", "i", "c", true, none, some "val"⟩ : ImageRecord)],
       [(⟨"f.jpg", "CheXpert", "i", "c", true, none, some "test"⟩ : ImageRecord)],
       ["chexpert_p0","chexpert_p1","chexpert_p2","chexpert_p3",
        "chexpert_p4","chexpert_p5","chexpert_p6","chexpert_p7"],
       ["chexpert_p8"], ["chexpert_p9"]⟩).no_patient_overlap = true ∧
    (validate_splits
      ["chexpert_p0","chexpert_p1","chexpert_p2","chexpert_p3","chexpert_p4",
       "chexpert_p5","chexpert_p6","chexpert_p7","chexpert_p8","chexpert_p9"]
      ⟨List.replicate 8 (⟨"f.jpg", "CheXpert", "i", "c", true, none, some "train"⟩ : ImageRecord),
       [(⟨"f.jpg", "CheXpert", "i", "c", true, none, some "val"⟩ : ImageRecord)],
       [(⟨"f.jpg", "CheXpert", "i", "c", true, none, some "test"⟩ : ImageRecord)],
       ["chexpert_p0","chexpert_p1","chexpert_p2","chexpert_p3",
        "chexpert_p4","chexpert_p5","chexpert_p6","chexpert_p7"],
       ["chexpert_p8"], ["chexpert_p9"]⟩).all_patients_assigned = true ∧
    (validate_splits
      ["chexpert_p0","chexpert_p1","chexpert_p2","chexpert_p3","chexpert_p4",
       "chexpert_p5","chexpert_p6","chexpert_p7","chexpert_p8","chexpert_p9"]
      ⟨List.replicate 8 (⟨"f.jpg", "CheXpert", "i", "c", true, none, some "train"⟩ : ImageRecord),
       [(⟨"f.jpg", "CheXpert", "i", "c", true, none, some "val"⟩ : ImageRecord)],
       [(⟨"f.jpg", "CheXpert", "i", "c", true, none, some "test"⟩ : ImageRecord)],
       ["chexpert_p0","chexpert_p1","chexpert_p2","chexpert_p3",
        "chexpert_p4","chexpert_p5","chexpert_p6","chexpert_p7"],
       ["chexpert_p8"], ["chexpert_p9"]⟩).ratio_validation = true ∧
    (validate_splits
      ["chexpert_p0","chexpert_p1","chexpert_p2","chexpert_p3","chexpert_p4",
       "chexpert_p5","chexpert_p6","chexpert_p7","chexpert_p8","chexpert_p9"]
      ⟨List.replicate 8 (⟨"f.jpg", "CheXpert", "i", "c", true, none, some "train"⟩ : ImageRecord),
       [(⟨"f.jpg", "CheXpert", "i", "c", true, none, some "val"⟩ : ImageRecord)],
       [(⟨"f.jpg", "CheXpert", "i", "c", true, none, some "test"⟩ : ImageRecord)],
       ["chexpert_p0","chexpert_p1","chexpert_p2","chexpert_p3",
        "chexpert_p4","chexpert_p5","chexpert_p6","chexpert_p7"],
       ["chexpert_p8"], ["chexpert_p9"]⟩).overall_valid = false := by
  refine ⟨demo_run_default, by decide, by decide, by decide, by decide, by decide,
    ?_, ?_⟩
  · refine (validate_ratio_iff _ _).mpr ?_
    dsimp only
    have hc1 : (["chexpert_p0","chexpert_p1","chexpert_p2","chexpert_p3",
        "chexpert_p4","chexpert_p5","chexpert_p6","chexpert_p7"] :
        List String).toFinset.card = 8 := by decide
    have hc2 : (["chexpert_p8"] : List String).toFinset.card = 1 := by decide
    have hc3 : (["chexpert_p9"] : List String).toFinset.card = 1 := by decide
    rw [hc1, hc2, hc3]
    norm_num
  · cases hb : (validate_splits
        ["chexpert_p0","chexpert_p1","chexpert_p2","chexpert_p3","chexpert_p4",
         "chexpert_p5","chexpert_p6","chexpert_p7","chexpert_p8","chexpert_p9"]
        ⟨List.replicate 8 (⟨"f.jpg", "CheXpert", "i", "c", true, none, some "train"⟩ : ImageRecord),
         [(⟨"f.jpg", "CheXpert", "i", "c", true, none, some "val"⟩ : ImageRecord)],
         [(⟨"f.jpg", "CheXpert", "i", "c", true, none, some "test"⟩ : ImageRecord)],
         ["chexpert_p0","chexpert_p1","chexpert_p2","chexpert_p3",
          "chexpert_p4","chexpert_p5","chexpert_p6","chexpert_p7"],
         ["chexpert_p8"], ["chexpert_p9"]⟩).overall_valid
    · rfl
    · exfalso
      have hall := (validate_overall_iff _ _).mp hb
      have hfalse : (validate_splits
          ["chexpert_p0","chexpert_p1","chexpert_p2","chexpert_p3","chexpert_p4",
           "chexpert_p5","chexpert_p6","chexpert_p7","chexpert_p8","chexpert_p9"]
          ⟨List.replicate 8 (⟨"f.jpg", "CheXpert", "i", "c", true, none, some "train"⟩ : ImageRecord),
           [(⟨"f.jpg", "CheXpert", "i", "c", true, none, some "val"⟩ : ImageRecord)],
           [(⟨"f.jpg", "CheXpert", "i", "c", true, none, some "test"⟩ : ImageRecord)],
           ["chexpert_p0","chexpert_p1","chexpert_p2","chexpert_p3",
            "chexpert_p4","chexpert_p5","chexpert_p6","chexpert_p7"],
           ["chexpert_p8"], ["chexpert_p9"]⟩).train_has_both_sources = false := by
        decide
      rw [hfalse] at hall
      exact absurd hall.2.2.1 (by decide)

/-- C8 (amended): the per-split source check of `validate_splits` passes if
and only if the split's image table carries exactly two distinct source tags
(`len(sources) == 2`), not "at least one patient per source present in the
inventory"; and a source-coverage violation is not merely flagged — a passing
overall verdict requires all three source checks to pass, so a violation
makes `overall_valid` false (the pipeline still continues and writes, but the
verdict fails). -/
theorem claim_C8_source_check (keys : List String) (s : SplitsData) :
    ((validate_splits keys s).train_has_both_sources = true ↔
      (s.train.map (fun r => r.source)).dedup.length = 2) ∧
    ((validate_splits keys s).val_has_both_sources = true ↔
      (s.val.map (fun r => r.source)).dedup.length = 2) ∧
    ((validate_splits keys s).test_has_both_sources = true ↔
      (s.test.map (fun r => r.source)).dedup.length = 2) ∧
    ((validate_splits keys s).overall_valid = true →
      (validate_splits keys s).train_has_both_sources = true ∧
      (validate_splits keys s).val_has_both_sources = true ∧
      (validate_splits keys s).test_has_both_sources = true) := by
  obtain ⟨h1, h2, h3⟩ := validate_sources_iff keys s
  refine ⟨h1, h2, h3, ?_⟩
  intro hov
  have hall := (validate_overall_iff keys s).mp hov
  exact ⟨hall.2.2.1, hall.2.2.2.1, hall.2.2.2.2.1⟩

/-- Witness for C8 at a concrete split: one CheXpert image per split. -/
theorem claim_C8_source_check_witness :
    ((validate_splits ["chexpert_p0"]
      ⟨[(⟨"f.jpg", "CheXpert", "i", "c", true, none, some "train"⟩ : ImageRecord)],
       [], [], ["chexpert_p0"], [], []⟩).train_has_both_sources = true ↔
      (([(⟨"f.jpg", "CheXpert", "i", "c", true, none, some "train"⟩ : ImageRecord)].map
        (fun r => r.source)).dedup.length = 2)) ∧
    ((validate_splits ["chexpert_p0"]
      ⟨[(⟨"f.jpg", "CheXpert", "i", "c", true, none, some "train"⟩ : ImageRecord)],
       [], [], ["chexpert_p0"], [], []⟩).val_has_both_sources = true ↔
      (([] : List ImageRecord).map (fun r => r.source)).dedup.length = 2) ∧
    ((validate_splits ["chexpert_p0"]
      ⟨[(⟨"f.jpg", "CheXpert", "i", "c", true, none, some "train"⟩ : ImageRecord)],
       [], [], ["chexpert_p0"], [], []⟩).test_has_both_sources = true ↔
      (([] : List ImageRecord).map (fun r => r.source)).dedup.length = 2) ∧
    ((validate_splits ["chexpert_p0"]
      ⟨[(⟨"f.jpg", "CheXpert", "i", "c", true, none, some "train"⟩ : ImageRecord)],
       [], [], ["chexpert_p0"], [], []⟩).overall_valid = true →
      (validate_splits ["chexpert_p0"]
        ⟨[(⟨"f.jpg", "CheXpert", "i", "c", true, none, some "train"⟩ : ImageRecord)],
         [], [], ["chexpert_p0"], [], []⟩).train_has_both_sources = true ∧
      (validate_splits ["chexpert_p0"]
        ⟨[(⟨"f.jpg", "CheXpert", "i", "c", true, none, some "train"⟩ : ImageRecord)],
         [], [], ["chexpert_p0"], [], []⟩).val_has_both_sources = true ∧
      (validate_splits ["chexpert_p0"]
        ⟨[(⟨"f.jpg", "CheXpert", "i", "c", true, none, some "train"⟩ : ImageRecord)],
         [], [], ["chexpert_p0"], [], []⟩).test_has_both_sources = true) :=
  claim_C8_source_check ["chexpert_p0"]
    ⟨[(⟨"f.jpg", "CheXpert", "i", "c", true, none, some "train"⟩ : ImageRecord)],
     [], [], ["chexpert_p0"], [], []⟩

/-- Appending to a string preserves a literal prefix. -/
lemma pyStartswith_append (s t pre : String) (h : pyStartswith s pre = true) :
    pyStartswith (s ++ t) pre = true := by
  rw [pyStartswith, List.isPrefixOf_iff_prefix] at h ⊢
  rw [String.data_append]
  exact h.trans (List.prefix_append s.data t.data)

/-- Both the parsed and the hash-fallback branches of `extract_patient_id`
yield identifiers bearing one of the two source prefixes. -/
lemma extract_ok_prefix (pyHash : String → Int) (filename source pid : String)
    (h : extract_patient_id pyHash filename source = .ok pid) :
    pyStartswith pid "chexpert_" = true ∨ pyStartswith pid "radiopaedia_" = true := by
  rw [extract_patient_id] at h
  by_cases h1 : source = "CheXpert"
  · rw [if_pos h1] at h
    cases hm : searchLitDigits "patient".data filename.data with
    | some ds =>
      rw [hm] at h
      injection h with h
      subst h
      exact Or.inl (pyStartswith_append "chexpert_patient" (String.mk ds)
        "chexpert_" (by decide))
    | none =>
      rw [hm] at h
      injection h with h
      subst h
      exact Or.inl (pyStartswith_append "chexpert_unknown_"
        (toString (pyHash filename)) "chexpert_" (by decide))
  · rw [if_neg h1] at h
    by_cases h2 : source = "Radiopaedia"
    · rw [if_pos h2] at h
      cases hm : searchLitDigits "radiopaedia_".data filename.data with
      | some ds =>
        rw [hm] at h
        injection h with h
        subst h
        exact Or.inr (pyStartswith_append "radiopaedia_" (String.mk ds)
          "radiopaedia_" (by decide))
      | none =>
        rw [hm] at h
        injection h with h
        subst h
        exact Or.inr (pyStartswith_append "radiopaedia_unknown_"
          (toString (pyHash filename)) "radiopaedia_" (by decide))
    · rw [if_neg h2] at h
      exact absurd h (by simp)

/-- `extract_patient_id` raises exactly on unrecognized source tags. -/
lemma extract_err_iff (pyHash : String → Int) (filename source : String) :
    (∃ e, extract_patient_id pyHash filename source = .error e) ↔
      (source ≠ "CheXpert" ∧ source ≠ "Radiopaedia") := by
  constructor
  · rintro ⟨e, he⟩
    by_cases h1 : source = "CheXpert"
    · exfalso
      obtain ⟨pid, hp⟩ := extract_patient_id_ok pyHash filename source (Or.inl h1)
      rw [hp] at he
      exact absurd he (by simp)
    · by_cases h2 : source = "Radiopaedia"
      · exfalso
        obtain ⟨pid, hp⟩ := extract_patient_id_ok pyHash filename source (Or.inr h2)
        rw [hp] at he
        exact absurd he (by simp)
      · exact ⟨h1, h2⟩
  · rintro ⟨h1, h2⟩
    exact ⟨.unknownSource source, by rw [extract_patient_id, if_neg h1, if_neg h2]⟩

/-- Inserting a record into the grouping either keeps the key list or appends
the new key. -/
lemma insertGroup_keys_map (acc : List (String × List ImageRecord)) (pid : String)
    (r : ImageRecord) :
    (insertGroup acc pid r).map (fun p => p.1) =
      if acc.any (fun p => p.1 == pid) then acc.map (fun p => p.1)
      else acc.map (fun p => p.1) ++ [pid] := by
  rw [insertGroup]
  by_cases h : acc.any (fun p => p.1 == pid)
  · rw [if_pos h, if_pos h, List.map_map]
    refine List.map_congr_left ?_
    intro p _
    simp only [Function.comp]
    split <;> rfl
  · rw [if_neg h, if_neg h, List.map_append]
    rfl

/-- Every key produced by the grouping fold carries one of the two source
prefixes. -/
lemma group_keys_aux (pyHash : String → Int) (rows : List ImageRecord) :
    ∀ acc, (∀ k ∈ acc.map (fun p => p.1),
        pyStartswith k "chexpert_" = true ∨ pyStartswith k "radiopaedia_" = true) →
      ∀ pd, rows.foldlM
        (fun acc row => do
          let pid ← extract_patient_id pyHash row.filename row.source
          pure (insertGroup acc pid { row with patient_id := some pid }))
        acc = Except.ok pd →
      ∀ k ∈ pd.map (fun p => p.1),
        pyStartswith k "chexpert_" = true ∨ pyStartswith k "radiopaedia_" = true := by
  induction rows with
  | nil =>
    intro acc hacc pd hpd
    injection hpd with h
    rw [← h]
    exact hacc
  | cons r rs ih =>
    intro acc hacc pd hpd
    simp only [List.foldlM] at hpd
    cases he : extract_patient_id pyHash r.filename r.source with
    | error e =>
      rw [he] at hpd
      exact absurd hpd (by simp [Bind.bind, Except.bind])
    | ok pid =>
      rw [he] at hpd
      refine ih (insertGroup acc pid { r with patient_id := some pid }) ?_ pd hpd
      intro k hk
      rw [insertGroup_keys_map] at hk
      by_cases hany : acc.any (fun p => p.1 == pid)
      · rw [if_pos hany] at hk
        exact hacc k hk
      · rw [if_neg hany] at hk
        rcases List.mem_append.mp hk with hk | hk
        · exact hacc k hk
        · rw [List.mem_singleton] at hk
          subst hk
          exact extract_ok_prefix pyHash r.filename r.source k he

/-- C10: `extract_patient_id` raises exactly when the source tag is neither
`"CheXpert"` nor `"Radiopaedia"`; every identifier it returns (parsed or
hash-fallback) starts with `"chexpert_"` or `"radiopaedia_"`; hence every key
produced by grouping bears one of the two prefixes, and the per-source prefix
filters of `create_splits` partition any such key list — no patient is
silently dropped. -/
theorem claim_C10_prefix_partition :
    (∀ (pyHash : String → Int) (filename source : String),
      (∃ e, extract_patient_id pyHash filename source = .error e) ↔
        (source ≠ "CheXpert" ∧ source ≠ "Radiopaedia")) ∧
    (∀ (pyHash : String → Int) (filename source pid : String),
      extract_patient_id pyHash filename source = .ok pid →
      pyStartswith pid "chexpert_" = true ∨ pyStartswith pid "radiopaedia_" = true) ∧
    (∀ (pyHash : String → Int) (rows : List ImageRecord)
      (pd : List (String × List ImageRecord)),
      group_by_patient pyHash rows = .ok pd →
      ∀ k ∈ pd.map (fun p => p.1),
        pyStartswith k "chexpert_" = true ∨ pyStartswith k "radiopaedia_" = true) ∧
    (∀ keys : List String,
      (∀ k ∈ keys, pyStartswith k "chexpert_" = true ∨
        pyStartswith k "radiopaedia_" = true) →
      (keys.filter (fun pid => pyStartswith pid "chexpert_") ++
        keys.filter (fun pid => pyStartswith pid "radiopaedia_")).Perm keys) := by
  refine ⟨extract_err_iff, extract_ok_prefix, ?_, filter_sources_perm⟩
  intro pyHash rows pd hpd
  exact group_keys_aux pyHash rows [] (by simp) pd hpd

/-- Witness for C10: a parsed CheXpert id, a hash-fallback Radiopaedia id,
and the partition of a concrete mixed key list. -/
theorem claim_C10_prefix_partition_witness :
    (pyStartswith "chexpert_patient5" "chexpert_" = true ∨
      pyStartswith "chexpert_patient5" "radiopaedia_" = true) ∧
    (pyStartswith "radiopaedia_unknown_7" "chexpert_" = true ∨
      pyStartswith "radiopaedia_unknown_7" "radiopaedia_" = true) ∧
    ((["chexpert_a","radiopaedia_b"] : List String).filter
        (fun pid => pyStartswith pid "chexpert_") ++
      (["chexpert_a","radiopaedia_b"] : List String).filter
        (fun pid => pyStartswith pid "radiopaedia_")).Perm
      ["chexpert_a","radiopaedia_b"] :=
  ⟨claim_C10_prefix_partition.2.1 (fun _ => 0) "patient5" "CheXpert"
      "chexpert_patient5" rfl,
   claim_C10_prefix_partition.2.1 (fun _ => 7) "scan.jpg" "Radiopaedia"
      "radiopaedia_unknown_7" rfl,
   claim_C10_prefix_partition.2.2.2 ["chexpert_a","radiopaedia_b"] (by decide)⟩

/-- Once grouping has succeeded, the pipeline is `create_splits` with the
hard-coded default ratios followed by the pure expansion/validation/artifact
tail (the let-bindings of `run_full_pipeline` inlined). -/
lemma run_full_pipeline_unfold (pyHash : String → Int)
    (readCaption : String → Option String) (shuffle : List String → List String)
    (rows : List ImageRecord) (pd : List (String × List ImageRecord))
    (hg : group_by_patient pyHash rows = .ok pd) :
    run_full_pipeline pyHash readCaption shuffle rows =
      (do
        let splits ← create_splits shuffle
          (fun pid => get_stratification_key
            (((extract_patient_disease_labels readCaption pd).lookup pid).getD
              ["unspecified"]))
          (pd.map (fun p => p.1)) (8/10) (1/10) (1/10)
        let (train_df, pd1) := patients_to_dataframe pd splits.train "train"
        let (val_df, pd2) := patients_to_dataframe pd1 splits.val "val"
        let (test_df, _pd3) := patients_to_dataframe pd2 splits.test "test"
        let sd : SplitsData :=
          { train := train_df, val := val_df, test := test_df,
            train_patients := splits.train, val_patients := splits.val,
            test_patients := splits.test }
        let results := validate_splits (pd.map (fun p => p.1)) sd
        pure
          { train_index := train_df, val_index := val_df, test_index := test_df,
            validation_checks := results,
            patient_mapping :=
              splits.train.map (fun pid => (pid, "train")) ++
                splits.val.map (fun pid => (pid, "val")) ++
                splits.test.map (fun pid => (pid, "test")) }) := by
  simp only [run_full_pipeline, hg]
  rfl

/-- The allocation the defaults-bound pipeline performs on the one-patient
inventory used in the C3 evidence: the single CheXpert patient goes to
`test` (cuts `int(1*0.8)=0` and `int(1*0.1)=0`). -/
lemma demo_run_dropped_ratios :
    create_splits id
      (fun pid => get_stratification_key
        (((extract_patient_disease_labels (fun _ => none)
            [("chexpert_patient1",
              [⟨"patient1_x.jpg", "CheXpert", "i", "c", false,
                some "chexpert_patient1", none⟩])]).lookup pid).getD
          ["unspecified"]))
      ["chexpert_patient1"] (8/10) (1/10) (1/10) =
      .ok { train := [], val := [], test := ["chexpert_patient1"] } := by
  have hchex : stratified_split_patients id
      (fun pid => get_stratification_key
        (((extract_patient_disease_labels (fun _ => none)
            [("chexpert_patient1",
              [⟨"patient1_x.jpg", "CheXpert", "i", "c", false,
                some "chexpert_patient1", none⟩])]).lookup pid).getD
          ["unspecified"]))
      ["chexpert_patient1"] (8/10) (1/10) (1/10) =
      .ok { train := [], val := [], test := ["chexpert_patient1"] } := by
    rw [stratified_split_patients, if_pos (by norm_num)]
    have hgk : groupByKey
        (fun pid => get_stratification_key
          (((extract_patient_disease_labels (fun _ => none)
              [("chexpert_patient1",
                [⟨"patient1_x.jpg", "CheXpert", "i", "c", false,
                  some "chexpert_patient1", none⟩])]).lookup pid).getD
            ["unspecified"]))
        ["chexpert_patient1"] = [("unspecified", ["chexpert_patient1"])] := by
      decide
    simp only [hgk, List.flatMap_cons, List.flatMap_nil, List.append_nil]
    rw [splitGroup_eq id (8/10) (1/10) _ 0 0
      (pyInt_eval_nonneg (by norm_num) (by norm_num) (by norm_num))
      (pyInt_eval_nonneg (by norm_num) (by norm_num) (by norm_num))]
    decide
  have hradio : stratified_split_patients id
      (fun pid => get_stratification_key
        (((extract_patient_disease_labels (fun _ => none)
            [("chexpert_patient1",
              [⟨"patient1_x.jpg", "CheXpert", "i", "c", false,
                some "chexpert_patient1", none⟩])]).lookup pid).getD
          ["unspecified"]))
      ([] : List String) (8/10) (1/10) (1/10) =
      .ok { train := [], val := [], test := [] } := by
    rw [stratified_split_patients, if_pos (by norm_num)]
    rfl
  have hf1 : (["chexpert_patient1"] : List String).filter
      (fun pid => pyStartswith pid "chexpert_") = ["chexpert_patient1"] := by decide
  have hf2 : (["chexpert_patient1"] : List String).filter
      (fun pid => pyStartswith pid "radiopaedia_") = [] := by decide
  rw [create_splits, hf1, hf2, hchex, hradio]
  rfl

/-- C3 (evidence for the code bug): the `abs(sum - 1.0) < 0.001` entry check
does reject the scenario ratios `0.7/0.2/0.2` with `InvalidRatioError`
wherever a ratio triple actually reaches it — at the entry of
`stratified_split_patients` and hence of `create_splits` — but a real run
never delivers them there: `run_full_pipeline` calls `create_splits` with the
hard-coded defaults (line 492) and `main()` parses yet drops the ratio flags
(lines 531-532), so the run the scenario prescribes completes successfully on
a valid inventory, returning artifacts (files are written, the patient is
mapped) instead of failing with no output. -/
theorem claim_C3_invalid_ratio :
    (∀ (shuffle : List String → List String) (stratKey : String → String)
      (ids : List String),
      stratified_split_patients shuffle stratKey ids (7/10) (2/10) (2/10) =
        .error .invalidRatio) ∧
    (∀ (shuffle : List String → List String) (stratKey : String → String)
      (keys : List String),
      create_splits shuffle stratKey keys (7/10) (2/10) (2/10) =
        .error .invalidRatio) ∧
    (∃ a, run_full_pipeline (fun _ => 0) (fun _ => none) id
        [⟨"patient1_x.jpg", "CheXpert", "i", "c", false, none, none⟩] =
        Except.ok a ∧
      a.patient_mapping = [("chexpert_patient1", "test")]) := by
  have hbad : ¬ (|(7/10 : ℚ) + 2/10 + 2/10 - 1| < 1/1000) := by
    rw [show (7/10 : ℚ) + 2/10 + 2/10 - 1 = 1/10 by norm_num,
      abs_of_nonneg (by norm_num : (0:ℚ) ≤ 1/10)]
    norm_num
  have hstrat : ∀ (shuffle : List String → List String) (K : String → String)
      (ids : List String),
      stratified_split_patients shuffle K ids (7/10) (2/10) (2/10) =
        .error .invalidRatio :=
    fun sh K ids => by rw [stratified_split_patients, if_neg hbad]
  refine ⟨hstrat, fun sh K keys => ?_, ?_⟩
  · rw [create_splits, hstrat]
    rfl
  · rw [run_full_pipeline_unfold (fun _ => 0) (fun _ => none) id
      [⟨"patient1_x.jpg", "CheXpert", "i", "c", false, none, none⟩]
      [("chexpert_patient1",
        [⟨"patient1_x.jpg", "CheXpert", "i", "c", false,
          some "chexpert_patient1", none⟩])] rfl]
    rw [show ([("chexpert_patient1",
        [(⟨"patient1_x.jpg", "CheXpert", "i", "c", false,
          some "chexpert_patient1", none⟩ : ImageRecord)])].map (fun p => p.1)) =
      ["chexpert_patient1"] from rfl]
    rw [demo_run_dropped_ratios]
    exact ⟨_, rfl, rfl⟩
